import Mathlib

/-
A shallow embedding of the snakes-and-ladders game server (server.js and
boardGenerator.js of GP-P2-HCK83/server-callback) together with proofs of
the behavioural properties of its move resolver, turn rotation, reset and
lifecycle handlers, and board presets.

Positions are modelled as Int (JS numbers on the integer range used here),
JS objects keyed by player id as insertion-ordered association lists, and
JS object property lookup (whose undefined and 0 are both falsy in the
truthiness tests of movePlayer) as a total lookup returning 0 for a
missing key.
-/

set_option maxRecDepth 10000

namespace SnakeGame

/-- One entry of the `game.players` object: connection id and current square. -/
structure Player where
  id : String
  position : Int
deriving DecidableEq

/-- The snake and ladder mappings of a board, as insertion-ordered key-value lists. -/
structure Board where
  snakes : List (Int × Int)
  ladders : List (Int × Int)
deriving DecidableEq

/-- One game session as stored in the `games` map of server.js. -/
structure Game where
  players : List Player
  currentPlayer : String
  gameStatus : String
  winner : Option String
  lastDiceValue : Int
  snakes : List (Int × Int)
  ladders : List (Int × Int)
deriving DecidableEq

/-- The initial session state built by createGame in server.js, once the board
has been chosen: both players at position 0, player 1 to move, status playing. -/
def createGame (player1Id player2Id : String) (board : Board) : Game :=
  { players := [{ id := player1Id, position := 0 }, { id := player2Id, position := 0 }],
    currentPlayer := player1Id,
    gameStatus := "playing",
    winner := none,
    lastDiceValue := 1,
    snakes := board.snakes,
    ladders := board.ladders }

/-- Dice movement with the bounce-back rule of movePlayer (server.js):
`newPosition = position + diceRoll`, and on overflow past 100 the overflow
amount is reflected back from 100. -/
def bounceTarget (pos d : Int) : Int :=
  if pos + d > 100 then 100 - (pos + d - 100) else pos + d

/-- JS object property read `m[k]` as used in the truthiness tests of
movePlayer: a missing key yields undefined, which (like a stored 0) is falsy,
so both are modelled as 0. -/
def boardLookup (m : List (Int × Int)) (k : Int) : Int :=
  match m.find? (fun e => e.1 == k) with
  | some e => e.2
  | none => 0

/-- The position of the player entry `game.players[playerId]` (0 for a
missing id; movePlayer is only ever invoked with an id present in the game). -/
def playerPos (g : Game) (pid : String) : Int :=
  match g.players.find? (fun p => p.id == pid) with
  | some p => p.position
  | none => 0

/-- The resolved target square of a move: bounce-back, then the snake check
and otherwise the ladder check of movePlayer. -/
def resolveTarget (g : Game) (pid : String) (d : Int) : Int :=
  let np := bounceTarget (playerPos g pid) d
  if boardLookup g.snakes np ≠ 0 then boardLookup g.snakes np
  else if boardLookup g.ladders np ≠ 0 then boardLookup g.ladders np
  else np

/-- The collision step of movePlayer: among the players other than the acting
one, the first whose position equals the target is sent back to square 1,
provided the target is not 0. -/
def displaceOthers (players : List Player) (pid : String) (target : Int) : List Player :=
  match (players.filter (fun p => p.id != pid)).find? (fun p => p.position == target) with
  | none => players
  | some q =>
      if target ≠ 0 then
        players.map (fun p => if p.id == q.id then { p with position := 1 } else p)
      else players

/-- The in-place update `player.position = newPosition` of movePlayer, on the
association-list model of `game.players`. -/
def setPlayerPos (players : List Player) (pid : String) (pos : Int) : List Player :=
  players.map (fun p => if p.id == pid then { p with position := pos } else p)

/-- JS `Array.prototype.indexOf`: the index of the first occurrence, -1 when absent. -/
def jsIndexOfAux (l : List String) (x : String) (i : Int) : Int :=
  match l with
  | [] => -1
  | y :: ys => if y == x then i else jsIndexOfAux ys x (i + 1)

/-- JS `playerIds.indexOf(playerId)`. -/
def jsIndexOf (l : List String) (x : String) : Int :=
  jsIndexOfAux l x 0

/-- The turn advance of movePlayer: `playerIds[(indexOf(playerId) + 1) % length]`. -/
def nextPlayerId (ids : List String) (pid : String) : String :=
  if ids.length = 0 then ""
  else ids.getD ((jsIndexOf ids pid + 1) % (ids.length : Int)).toNat ""

/-- The value movePlayer returns: the mutated game together with the
transient extraTurn flag of the spread copy `{...game, extraTurn}`. -/
structure MoveResult where
  game : Game
  extraTurn : Bool
deriving DecidableEq

/-- movePlayer of server.js: bounce-back, snake/ladder resolution, collision
displacement, position update, win check, extra-turn check and turn advance. -/
def movePlayer (g : Game) (pid : String) (d : Int) : MoveResult :=
  let target := resolveTarget g pid d
  let ps1 := displaceOthers g.players pid target
  let ps2 := setPlayerPos ps1 pid target
  if target = 100 then
    { game := { g with players := ps2, gameStatus := "won", winner := some pid },
      extraTurn := false }
  else if d = 6 then
    { game := { g with players := ps2 }, extraTurn := true }
  else
    let nxt := nextPlayerId (ps2.map (fun p => p.id)) pid
    { game := { g with players := ps2, currentPlayer := nxt }, extraTurn := false }

/-- What the roll-dice handler sends back: nothing (the silent early return
for a missing or won game), the not-your-turn emit, or the game-update
broadcast carrying the extraTurn flag and the playersAffected id list. -/
inductive RollResponse where
  | silent : RollResponse
  | notYourTurn : RollResponse
  | update : Bool → List String → RollResponse
deriving DecidableEq

/-- The roll-dice handler of server.js on an existing game, with the randomly
drawn die value passed as the parameter `d`: the won-status guard, the
current-player guard, lastDiceValue assignment, movePlayer, and the
playersAffected computation (every player at position 1 other than the roller). -/
def rollDice (g : Game) (sid : String) (d : Int) : Game × RollResponse :=
  if g.gameStatus = "won" then (g, RollResponse.silent)
  else if g.currentPlayer ≠ sid then (g, RollResponse.notYourTurn)
  else
    let g1 := { g with lastDiceValue := d }
    let r := movePlayer g1 sid d
    let affected := (r.game.players.filter (fun p => p.position == 1 && p.id != sid)).map
      (fun p => p.id)
    (r.game, RollResponse.update r.extraTurn affected)

/-- The reset-game handler body on an existing game: all positions to 0,
status playing, winner cleared, lastDiceValue 1, and currentPlayer set to
the insertion-first key of `game.players`. -/
def resetGame (g : Game) : Game :=
  { g with players := g.players.map (fun p => { p with position := (0 : Int) }),
           gameStatus := "playing",
           winner := none,
           lastDiceValue := 1,
           currentPlayer :=
             ((g.players.map (fun p => { p with position := (0 : Int) })).map
               (fun p => p.id)).getD 0 "" }

/-- The `games` map of server.js, as an insertion-ordered association list. -/
abbrev Registry := List (String × Game)

/-- `games.get(gameId)`. -/
def lookupGame (r : Registry) (gid : String) : Option Game :=
  (r.find? (fun e => e.1 == gid)).map (fun e => e.2)

/-- In-place mutation of the game stored under `gid`. -/
def updateGame (r : Registry) (gid : String) (g : Game) : Registry :=
  r.map (fun e => if e.1 == gid then (e.1, g) else e)

/-- `games.delete(gameId)`. -/
def deleteGame (r : Registry) (gid : String) : Registry :=
  r.filter (fun e => e.1 != gid)

/-- The reset-game handler: a silent no-op when `games.get(gameId)` is
undefined, otherwise the in-place reset of the stored game. -/
def resetSession (r : Registry) (gid : String) : Registry :=
  match lookupGame r gid with
  | none => r
  | some g => updateGame r gid (resetGame g)

/-- A pending `setTimeout` callback scheduled by the disconnect handler:
after `delayMs` milliseconds, run `games.delete(gameId)`. -/
structure TimerAction where
  delayMs : Nat
  gameId : String
deriving DecidableEq

/-- The game-teardown part of the disconnect handler: remove the departed
player from the game; if one or zero players remain, schedule an
unconditional deletion of the game after 5000 ms (nothing is deleted
synchronously). -/
def disconnectHandler (gms : Registry) (gid : Option String) (sid : String) :
    Registry × List TimerAction :=
  match gid with
  | none => (gms, [])
  | some gameId =>
    match lookupGame gms gameId with
    | none => (gms, [])
    | some g =>
      let g1 := { g with players := g.players.filter (fun p => p.id != sid) }
      let gms1 := updateGame gms gameId g1
      if g1.players.length ≤ 1 then (gms1, [⟨5000, gameId⟩]) else (gms1, [])

/-- Expiry of a scheduled deletion: the callback body is exactly
`games.delete(gameId)`, with no re-check of the player count. -/
def fireTimer (gms : Registry) (t : TimerAction) : Registry :=
  deleteGame gms t.gameId

/-- The leave-game handler: remove the leaving player; delete the game
synchronously exactly when no players remain; no timer is ever scheduled. -/
def leaveHandler (gms : Registry) (gid : Option String) (sid : String) : Registry :=
  match gid with
  | none => gms
  | some gameId =>
    match lookupGame gms gameId with
    | none => gms
    | some g =>
      let g1 := { g with players := g.players.filter (fun p => p.id != sid) }
      if g1.players.length = 0 then deleteGame gms gameId
      else updateGame gms gameId g1

/-- The easy preset of BoardGenerator.getPresetBoards. -/
def easyPreset : Board :=
  { snakes := [(23, 8), (47, 15), (72, 51), (89, 67), (98, 79)],
    ladders := [(3, 22), (8, 31), (15, 44), (21, 42), (28, 56), (36, 77),
                (51, 67), (62, 81), (71, 91), (78, 98), (84, 95), (87, 94)] }

/-- The moderate preset of BoardGenerator.getPresetBoards. -/
def moderatePreset : Board :=
  { snakes := [(16, 6), (47, 26), (56, 34), (62, 19), (64, 39), (87, 24),
               (93, 55), (98, 78)],
    ladders := [(1, 38), (4, 14), (9, 31), (21, 42), (28, 84), (36, 57),
                (51, 67), (71, 91)] }

/-- The hard preset of BoardGenerator.getPresetBoards. -/
def hardPreset : Board :=
  { snakes := [(17, 3), (22, 5), (34, 12), (42, 18), (48, 11), (54, 31),
               (67, 29), (76, 25), (89, 46), (92, 73), (95, 56), (99, 68)],
    ladders := [(7, 27), (15, 35), (24, 43), (39, 58), (65, 85)] }

/-- The preset chosen by `presets[difficulty]` in createGame. -/
def getPresetBoard (difficulty : String) : Option Board :=
  if difficulty = "easy" then some easyPreset
  else if difficulty = "moderate" then some moderatePreset
  else if difficulty = "hard" then some hardPreset
  else none

/-- The board createGame attaches to the new session: the generator result
when generation succeeded, otherwise `presets[difficulty] || presets.moderate`.
No validation is applied on the fallback path. -/
def createGameBoard (genResult : Except Unit Board) (difficulty : String) : Board :=
  match genResult with
  | Except.ok b => b
  | Except.error _ => (getPresetBoard difficulty).getD moderatePreset

/-- All positions mentioned by a board: snake heads, snake tails, ladder
bottoms and ladder tops. -/
def boardPositions (b : Board) : List Int :=
  b.snakes.map (fun e => e.1) ++ b.snakes.map (fun e => e.2) ++
  b.ladders.map (fun e => e.1) ++ b.ladders.map (fun e => e.2)

/-- The Board Descriptor invariant of the specification: every snake goes
strictly down, every ladder strictly up, no mentioned position equals 1 or
100, and no position occurs twice across the two maps. -/
def specBoardValid (b : Board) : Prop :=
  (∀ e ∈ b.snakes, e.2 < e.1) ∧
  (∀ e ∈ b.ladders, e.1 < e.2) ∧
  (∀ x ∈ boardPositions b, x ≠ 1 ∧ x ≠ 100) ∧
  (boardPositions b).Nodup

instance (b : Board) : Decidable (specBoardValid b) := by
  unfold specBoardValid
  infer_instance

/-- The per-entry loop of BoardGenerator.validateBoard: reject an entry with
the wrong direction (`bad`) or a position outside 2..99, reject a position
already seen, and otherwise accumulate both positions. -/
def checkEntries (entries : List (Int × Int)) (bad : Int → Int → Bool)
    (seen : List Int) : Option (List Int) :=
  match entries with
  | [] => some seen
  | (s, e) :: rest =>
    if bad s e || decide (s < 2) || decide (s > 99) || decide (e < 2) || decide (e > 99) then
      none
    else if seen.contains s || seen.contains e then none
    else checkEntries rest bad (seen ++ [s, e])

/-- BoardGenerator.validateBoard: the feature-count tolerance check followed
by the direction, range and overlap checks over snakes and then ladders. -/
def validateBoard (b : Board) (cfgLadders cfgSnakes : Int) : Bool :=
  let snakeCount : Int := b.snakes.length
  let ladderCount : Int := b.ladders.length
  if ¬ ((snakeCount - cfgSnakes).natAbs ≤ 2 ∧ (ladderCount - cfgLadders).natAbs ≤ 2) then
    false
  else
    match checkEntries b.snakes (fun s e => decide (s ≤ e)) [] with
    | none => false
    | some seen =>
      match checkEntries b.ladders (fun s e => decide (s ≥ e)) seen with
      | none => false
      | some _ => true

/-- Every player of the game sits on a square between 0 and 100. -/
def posInv (g : Game) : Prop :=
  ∀ r ∈ g.players, 0 ≤ r.position ∧ r.position ≤ 100

instance (g : Game) : Decidable (posInv g) := by
  unfold posInv
  infer_instance

/-- Every snake and ladder of the game maps into 0..100. -/
def boardValsInv (g : Game) : Prop :=
  (∀ e ∈ g.snakes, 0 ≤ e.2 ∧ e.2 ≤ 100) ∧ (∀ e ∈ g.ladders, 0 ≤ e.2 ∧ e.2 ≤ 100)

instance (g : Game) : Decidable (boardValsInv g) := by
  unfold boardValsInv
  infer_instance

/-- C4: for every position p in [0,100] and die value d in [1,6], the
pre-feature target of the move resolver equals 200 - p - d when p + d
overflows 100, that reflected value lies in [94,100], and otherwise the
pre-feature target is p + d. -/
theorem bounce_pre_feature_target (p d : Int)
    (hp0 : 0 ≤ p) (hp1 : p ≤ 100) (hd0 : 1 ≤ d) (hd1 : d ≤ 6) :
    (p + d > 100 →
      bounceTarget p d = 200 - p - d ∧ 94 ≤ bounceTarget p d ∧ bounceTarget p d ≤ 100) ∧
    (p + d ≤ 100 → bounceTarget p d = p + d) := by
  unfold bounceTarget
  constructor
  · intro h
    rw [if_pos h]
    omega
  · intro h
    rw [if_neg (by omega)]

/-- The bounce rule evaluated at position 97 with die 6: target 103 reflects
to 97, inside [94,100]. -/
theorem bounce_pre_feature_target_witness :
    bounceTarget 97 6 = 97 ∧ 94 ≤ bounceTarget 97 6 ∧ bounceTarget 97 6 ≤ 100 := by
  have h := (bounce_pre_feature_target 97 6 (by decide) (by decide) (by decide)
    (by decide)).1 (by decide)
  exact ⟨h.1.trans (by decide), h.2.1, h.2.2⟩

/-- C5: when the resolved final target is 100, movePlayer sets the status to
won and the winner to the acting player, returns extraTurn false whatever the
die value, and leaves currentPlayer unchanged. -/
theorem win_move_spec (g : Game) (pid : String) (d : Int)
    (h : resolveTarget g pid d = 100) :
    (movePlayer g pid d).game.gameStatus = "won" ∧
    (movePlayer g pid d).game.winner = some pid ∧
    (movePlayer g pid d).extraTurn = false ∧
    (movePlayer g pid d).game.currentPlayer = g.currentPlayer := by
  simp [movePlayer, h]

/-- A session in which a sits on square 94, six short of the goal. -/
def aboutToWinGame : Game :=
  { players := [⟨"a", 94⟩, ⟨"b", 3⟩],
    currentPlayer := "a",
    gameStatus := "playing",
    winner := none,
    lastDiceValue := 1,
    snakes := moderatePreset.snakes,
    ladders := moderatePreset.ladders }

/-- A winning roll of 6 from square 94: status won, winner set, no extra
turn despite the 6, turn pointer frozen. -/
theorem win_move_spec_witness :
    (movePlayer aboutToWinGame "a" 6).game.gameStatus = "won" ∧
    (movePlayer aboutToWinGame "a" 6).game.winner = some "a" ∧
    (movePlayer aboutToWinGame "a" 6).extraTurn = false ∧
    (movePlayer aboutToWinGame "a" 6).game.currentPlayer = "a" := by
  have h := win_move_spec aboutToWinGame "a" 6 (by decide)
  exact ⟨h.1, h.2.1, h.2.2.1, h.2.2.2.trans (by decide)⟩

/-- A finished session: player a has won on square 100, b sits on 4. -/
def wonGame : Game :=
  { players := [⟨"a", 100⟩, ⟨"b", 4⟩],
    currentPlayer := "a",
    gameStatus := "won",
    winner := some "a",
    lastDiceValue := 2,
    snakes := moderatePreset.snakes,
    ladders := moderatePreset.ladders }

/-- A running session with a to move, used to exercise the rejection path
for a roll from the non-current player b. -/
def playingGame : Game :=
  { players := [⟨"a", 10⟩, ⟨"b", 20⟩],
    currentPlayer := "a",
    gameStatus := "playing",
    winner := none,
    lastDiceValue := 1,
    snakes := moderatePreset.snakes,
    ladders := moderatePreset.ladders }

/-- C3 amended: both rejection cases leave the session unmutated, but the
not-your-turn signal is emitted only for a roll by the non-current player on
a session that is still playing; a roll on a won session is dropped silently. -/
theorem roll_rejection_behaviour (g : Game) (sid : String) (d : Int) :
    (g.gameStatus = "won" → rollDice g sid d = (g, RollResponse.silent)) ∧
    (g.gameStatus ≠ "won" → g.currentPlayer ≠ sid →
      rollDice g sid d = (g, RollResponse.notYourTurn)) := by
  constructor
  · intro h
    simp [rollDice, h]
  · intro h1 h2
    simp [rollDice, h1, h2]

/-- On the concrete won session, a roll request from b (who is not the
current player, and the session is finished) is dropped with no mutation and
no not-your-turn emit, contradicting the claim that the not-your-turn signal
is emitted in both rejection cases. -/
theorem won_roll_silent_counterexample :
    wonGame.gameStatus = "won" ∧
    wonGame.currentPlayer ≠ "b" ∧
    rollDice wonGame "b" 3 = (wonGame, RollResponse.silent) ∧
    RollResponse.silent ≠ RollResponse.notYourTurn := by
  refine ⟨rfl, by decide, by decide, by decide⟩

/-- The amended rejection behaviour at concrete inputs: the non-current
player on the running session gets not-your-turn with no mutation, and the
won session drops the roll silently with no mutation. -/
theorem roll_rejection_behaviour_witness :
    rollDice playingGame "b" 3 = (playingGame, RollResponse.notYourTurn) ∧
    rollDice wonGame "a" 5 = (wonGame, RollResponse.silent) := by
  exact ⟨(roll_rejection_behaviour playingGame "b" 3).2 (by decide) (by decide),
         (roll_rejection_behaviour wonGame "a" 5).1 rfl⟩

/-- C2: on a board-generation error, createGame attaches
`presets[difficulty] || presets.moderate` without validating it, and both the
moderate preset (its ladder map contains key 1) and the easy preset (its
position multiset has duplicates such as 8, 15, 51, 67 and 98) violate the
Board Descriptor invariants; the moderate preset also fails the code's own
validateBoard at its configured counts, while the hard preset passes the
invariants. -/
theorem preset_fallback_invalid_board :
    createGameBoard (Except.error ()) "moderate" = moderatePreset ∧
    ¬ specBoardValid moderatePreset ∧
    ¬ specBoardValid easyPreset ∧
    validateBoard moderatePreset 8 8 = false ∧
    specBoardValid hardPreset := by
  refine ⟨rfl, by decide, by decide, by decide, by decide⟩

/-- Looking a key up after an in-place update of that key yields the new game. -/
lemma lookup_update (r : Registry) (gid : String) (g g1 : Game)
    (h : lookupGame r gid = some g) :
    lookupGame (updateGame r gid g1) gid = some g1 := by
  induction r with
  | nil => simp [lookupGame] at h
  | cons e rest ih =>
    cases he : (e.1 == gid) with
    | true =>
      unfold lookupGame updateGame
      rw [List.map_cons, if_pos he]
      simp [List.find?, he]
    | false =>
      unfold lookupGame at h ⊢
      unfold updateGame
      rw [List.map_cons, if_neg (by simp [he])]
      simp only [List.find?, he] at h ⊢
      exact ih h

/-- Updating the same key twice with the same game collapses to one update. -/
lemma update_update (r : Registry) (gid : String) (g1 : Game) :
    updateGame (updateGame r gid g1) gid g1 = updateGame r gid g1 := by
  unfold updateGame
  rw [List.map_map]
  apply List.map_congr_left
  intro e _
  by_cases he : e.1 = gid
  · simp [Function.comp, he]
  · simp [Function.comp, he]

/-- Zeroing every position twice is the same as zeroing once. -/
lemma reset_players_idem (l : List Player) :
    (l.map (fun p => { p with position := (0 : Int) })).map
        (fun p => { p with position := (0 : Int) }) =
      l.map (fun p => { p with position := (0 : Int) }) := by
  rw [List.map_map]
  exact List.map_congr_left (fun a _ => rfl)

/-- Resetting an already-reset game changes nothing. -/
lemma resetGame_idem (g : Game) : resetGame (resetGame g) = resetGame g := by
  unfold resetGame
  rw [reset_players_idem]

/-- C7: the reset handler on an existing session sets every position to 0,
status playing, clears the winner, and points currentPlayer at the
insertion-first player; on a missing session id it is a silent no-op; and
running it twice gives exactly the state of running it once. -/
theorem reset_spec (r : Registry) (gid : String) :
    (∀ g, lookupGame r gid = some g →
        lookupGame (resetSession r gid) gid = some (resetGame g)) ∧
    (∀ g, lookupGame r gid = some g →
        (∀ x ∈ (resetGame g).players, x.position = 0) ∧
        (resetGame g).gameStatus = "playing" ∧
        (resetGame g).winner = none ∧
        (∀ p0 ps, g.players = p0 :: ps → (resetGame g).currentPlayer = p0.id)) ∧
    (lookupGame r gid = none → resetSession r gid = r) ∧
    resetSession (resetSession r gid) gid = resetSession r gid := by
  refine ⟨?_, ?_, ?_, ?_⟩
  · intro g h
    unfold resetSession
    rw [h]
    exact lookup_update r gid g (resetGame g) h
  · intro g _
    refine ⟨?_, rfl, rfl, ?_⟩
    · intro x hx
      unfold resetGame at hx
      obtain ⟨y, _, rfl⟩ := List.mem_map.1 hx
      rfl
    · intro p0 ps hps
      unfold resetGame
      simp [hps]
  · intro h
    unfold resetSession
    rw [h]
  · cases h : lookupGame r gid with
    | none =>
      unfold resetSession
      rw [h]
      rw [h]
    | some g =>
      have h2 : resetSession r gid = updateGame r gid (resetGame g) := by
        unfold resetSession
        rw [h]
      have h3 : lookupGame (updateGame r gid (resetGame g)) gid = some (resetGame g) :=
        lookup_update r gid g (resetGame g) h
      rw [h2]
      unfold resetSession
      rw [h3]
      show updateGame (updateGame r gid (resetGame g)) gid (resetGame (resetGame g)) =
        updateGame r gid (resetGame g)
      rw [resetGame_idem]
      exact update_update r gid (resetGame g)

/-- The reset handler applied to the concrete finished session: positions
drop to 0, status returns to playing, the first player a gets the turn, and
a second reset changes nothing further. -/
theorem reset_spec_witness :
    lookupGame (resetSession [("g1", wonGame)] "g1") "g1" = some (resetGame wonGame) ∧
    (resetGame wonGame).gameStatus = "playing" ∧
    (resetGame wonGame).currentPlayer = "a" ∧
    resetSession (resetSession [("g1", wonGame)] "g1") "g1" =
      resetSession [("g1", wonGame)] "g1" := by
  have h := reset_spec [("g1", wonGame)] "g1"
  have hl : lookupGame [("g1", wonGame)] "g1" = some wonGame := by decide
  refine ⟨h.1 wonGame hl, (h.2.1 wonGame hl).2.1, ?_, h.2.2.2⟩
  have hc := (h.2.1 wonGame hl).2.2.2 ⟨"a", 100⟩ [⟨"b", 4⟩] rfl
  exact hc

/-- C10: the reset handler checks no precondition beyond session existence:
even when the session is already won and the requesting player is not the
current player, the stored state is overwritten with the full reset state. -/
theorem reset_unguarded (r : Registry) (gid rid : String) (g : Game)
    (hg : lookupGame r gid = some g)
    (_hwon : g.gameStatus = "won")
    (_hnotturn : g.currentPlayer ≠ rid) :
    lookupGame (resetSession r gid) gid = some (resetGame g) ∧
    (resetGame g).gameStatus = "playing" ∧
    (resetGame g).winner = none ∧
    (∀ x ∈ (resetGame g).players, x.position = 0) := by
  refine ⟨?_, rfl, rfl, ?_⟩
  · unfold resetSession
    rw [hg]
    exact lookup_update r gid g (resetGame g) hg
  · intro x hx
    unfold resetGame at hx
    obtain ⟨y, _, rfl⟩ := List.mem_map.1 hx
    rfl

/-- The unguarded reset exercised on the concrete won session by the
non-current player b: the finished game is wiped back to the playing state. -/
theorem reset_unguarded_witness :
    lookupGame (resetSession [("g1", wonGame)] "g1") "g1" = some (resetGame wonGame) ∧
    (resetGame wonGame).winner = none := by
  have h := reset_unguarded [("g1", wonGame)] "g1" "b" wonGame (by decide) rfl (by decide)
  exact ⟨h.1, h.2.2.1⟩

/-- Position updates do not change the list of player ids. -/
lemma setPlayerPos_ids (ps : List Player) (pid : String) (v : Int) :
    (setPlayerPos ps pid v).map (fun p => p.id) = ps.map (fun p => p.id) := by
  unfold setPlayerPos
  rw [List.map_map]
  apply List.map_congr_left
  intro x _
  by_cases h : (x.id == pid) = true
  · simp [Function.comp, h]
  · simp [Function.comp, h]

/-- Collision displacement does not change the list of player ids. -/
lemma displaceOthers_ids (ps : List Player) (pid : String) (t : Int) :
    (displaceOthers ps pid t).map (fun p => p.id) = ps.map (fun p => p.id) := by
  unfold displaceOthers
  split
  · rfl
  · rename_i q heq
    split
    · rw [List.map_map]
      apply List.map_congr_left
      intro x _
      by_cases h : (x.id == q.id) = true
      · simp [Function.comp, h]
      · simp [Function.comp, h]
    · rfl

/-- In every branch of movePlayer, the stored player list is the displaced
list with the acting player's position set to the resolved target. -/
lemma movePlayer_players (g : Game) (pid : String) (d : Int) :
    (movePlayer g pid d).game.players =
      setPlayerPos (displaceOthers g.players pid (resolveTarget g pid d)) pid
        (resolveTarget g pid d) := by
  simp only [movePlayer]
  split
  · rfl
  · split
    · rfl
    · rfl

/-- Displacement in a two-player list when the acting player is listed first. -/
lemma displaceOthers_pair_fst (x y : Player) (t : Int) (hy : y.id ≠ x.id) :
    displaceOthers [x, y] x.id t =
      if y.position = t ∧ t ≠ 0 then [x, { y with position := 1 }] else [x, y] := by
  have h1 : (x.id != x.id) = false := by simp
  have h2 : (y.id != x.id) = true := by simp [hy]
  have h3 : (x.id == y.id) = false := by simp [Ne.symm hy]
  unfold displaceOthers
  by_cases hyt : y.position = t
  · by_cases ht : t = 0
    · simp [List.filter_cons, h1, h2, List.find?, hyt, ht]
    · simp [List.filter_cons, h1, h2, h3, Ne.symm hy, List.find?, hyt, ht]
  · simp [List.filter_cons, h1, h2, List.find?, hyt]

/-- Displacement in a two-player list when the acting player is listed second. -/
lemma displaceOthers_pair_snd (x y : Player) (t : Int) (hx : x.id ≠ y.id) :
    displaceOthers [x, y] y.id t =
      if x.position = t ∧ t ≠ 0 then [{ x with position := 1 }, y] else [x, y] := by
  have h1 : (x.id != y.id) = true := by simp [hx]
  have h2 : (y.id != y.id) = false := by simp
  have h3 : (y.id == x.id) = false := by simp [Ne.symm hx]
  unfold displaceOthers
  by_cases hxt : x.position = t
  · by_cases ht : t = 0
    · simp [List.filter_cons, h1, h2, List.find?, hxt, ht]
    · simp [List.filter_cons, h1, h2, h3, Ne.symm hx, List.find?, hxt, ht]
  · simp [List.filter_cons, h1, h2, List.find?, hxt]

/-- Setting the first player's position in a two-player list. -/
lemma setPlayerPos_pair_fst (x y : Player) (v : Int) (hy : y.id ≠ x.id) :
    setPlayerPos [x, y] x.id v = [{ x with position := v }, y] := by
  unfold setPlayerPos
  simp [hy]

/-- Setting the second player's position in a two-player list. -/
lemma setPlayerPos_pair_snd (x y : Player) (v : Int) (hx : x.id ≠ y.id) :
    setPlayerPos [x, y] y.id v = [x, { y with position := v }] := by
  unfold setPlayerPos
  simp [hx]

/-- The full player-list effect of movePlayer on a two-player session whose
acting player is listed first: the actor lands on the resolved target, and
the other player is reset to square 1 exactly when occupying a nonzero target. -/
lemma movePlayer_pair_fst (g : Game) (x y : Player) (d : Int)
    (hps : g.players = [x, y]) (hy : y.id ≠ x.id) :
    (movePlayer g x.id d).game.players =
      [{ x with position := resolveTarget g x.id d },
       if y.position = resolveTarget g x.id d ∧ resolveTarget g x.id d ≠ 0 then
         { y with position := 1 } else y] := by
  rw [movePlayer_players, hps, displaceOthers_pair_fst x y _ hy]
  by_cases hcol : y.position = resolveTarget g x.id d ∧ resolveTarget g x.id d ≠ 0
  · rw [if_pos hcol, if_pos hcol]
    exact setPlayerPos_pair_fst x { y with position := 1 } _ hy
  · rw [if_neg hcol, if_neg hcol]
    exact setPlayerPos_pair_fst x y _ hy

/-- The full player-list effect of movePlayer on a two-player session whose
acting player is listed second. -/
lemma movePlayer_pair_snd (g : Game) (x y : Player) (d : Int)
    (hps : g.players = [x, y]) (hx : x.id ≠ y.id) :
    (movePlayer g y.id d).game.players =
      [if x.position = resolveTarget g y.id d ∧ resolveTarget g y.id d ≠ 0 then
         { x with position := 1 } else x,
       { y with position := resolveTarget g y.id d }] := by
  rw [movePlayer_players, hps, displaceOthers_pair_snd x y _ hx]
  by_cases hcol : x.position = resolveTarget g y.id d ∧ resolveTarget g y.id d ≠ 0
  · rw [if_pos hcol, if_pos hcol]
    exact setPlayerPos_pair_snd { x with position := 1 } y _ hx
  · rw [if_neg hcol, if_neg hcol]
    exact setPlayerPos_pair_snd x y _ hx

/-- The two-player turn advance when the acting player is listed first. -/
lemma nextPlayerId_pair_left (a b : String) : nextPlayerId [a, b] a = b := by
  have h0 : jsIndexOf [a, b] a = 0 := by
    simp [jsIndexOf, jsIndexOfAux]
  unfold nextPlayerId
  rw [if_neg (by simp), h0]
  norm_num [List.getD]

/-- The two-player turn advance when the acting player is listed second. -/
lemma nextPlayerId_pair_right (a b : String) (h : a ≠ b) : nextPlayerId [a, b] b = a := by
  have h0 : jsIndexOf [a, b] b = 1 := by
    simp [jsIndexOf, jsIndexOfAux, h]
  unfold nextPlayerId
  rw [if_neg (by simp), h0]
  norm_num [List.getD]

/-- C6: on a non-winning move of a two-player session, extraTurn is exactly
"the die showed 6"; currentPlayer is unchanged on an extra turn and otherwise
becomes the other player's id; on a winning move currentPlayer does not
change; and once the session is won a roll request changes nothing at all. -/
theorem turn_rotation_spec (g : Game) (a o : Player) (d : Int)
    (hps : g.players = [a, o] ∨ g.players = [o, a]) (hne : o.id ≠ a.id) :
    (resolveTarget g a.id d ≠ 100 →
      ((movePlayer g a.id d).extraTurn = (d == 6)) ∧
      (d = 6 → (movePlayer g a.id d).game.currentPlayer = g.currentPlayer) ∧
      (d ≠ 6 → (movePlayer g a.id d).game.currentPlayer = o.id)) ∧
    (resolveTarget g a.id d = 100 →
      (movePlayer g a.id d).game.currentPlayer = g.currentPlayer) ∧
    (g.gameStatus = "won" → (rollDice g a.id d).1 = g) := by
  refine ⟨?_, ?_, ?_⟩
  · intro ht
    have hids : (setPlayerPos
        (displaceOthers g.players a.id (resolveTarget g a.id d)) a.id
        (resolveTarget g a.id d)).map (fun p => p.id) =
        g.players.map (fun p => p.id) := by
      rw [setPlayerPos_ids, displaceOthers_ids]
    by_cases hd : d = 6
    · refine ⟨?_, fun _ => ?_, fun h6 => absurd hd h6⟩
      · simp only [movePlayer]
        rw [if_neg ht, if_pos hd]
        simp [hd]
      · simp only [movePlayer]
        rw [if_neg ht, if_pos hd]
    · refine ⟨?_, fun h6 => absurd h6 hd, fun _ => ?_⟩
      · simp only [movePlayer]
        rw [if_neg ht, if_neg hd]
        simp [hd]
      · simp only [movePlayer]
        rw [if_neg ht, if_neg hd]
        show nextPlayerId ((setPlayerPos
          (displaceOthers g.players a.id (resolveTarget g a.id d)) a.id
          (resolveTarget g a.id d)).map (fun p => p.id)) a.id = o.id
        rw [hids]
        cases hps with
        | inl h =>
          rw [h]
          exact nextPlayerId_pair_left a.id o.id
        | inr h =>
          rw [h]
          exact nextPlayerId_pair_right o.id a.id hne
  · intro ht
    simp only [movePlayer]
    rw [if_pos ht]
  · intro hw
    simp [rollDice, hw]

/-- The turn logic at concrete inputs: a roll of 2 passes the turn to the
other player with no extra turn, and a roll of 6 keeps the turn with an
extra turn. -/
theorem turn_rotation_spec_witness :
    (movePlayer playingGame "a" 2).game.currentPlayer = "b" ∧
    (movePlayer playingGame "a" 2).extraTurn = false ∧
    (movePlayer playingGame "a" 6).game.currentPlayer = "a" ∧
    (movePlayer playingGame "a" 6).extraTurn = true := by
  have h2 := (turn_rotation_spec playingGame ⟨"a", 10⟩ ⟨"b", 20⟩ 2
    (Or.inl rfl) (by decide)).1 (by decide)
  have h6 := (turn_rotation_spec playingGame ⟨"a", 10⟩ ⟨"b", 20⟩ 6
    (Or.inl rfl) (by decide)).1 (by decide)
  exact ⟨h2.2.2 (by decide), h2.1.trans (by decide),
         (h6.2.1 rfl).trans (by decide), h6.1.trans (by decide)⟩

/-- A two-player session in which the opponent b is already resting on
square 1 while a is about to move from square 5. -/
def restingGame : Game :=
  { players := [⟨"a", 5⟩, ⟨"b", 1⟩],
    currentPlayer := "a",
    gameStatus := "playing",
    winner := none,
    lastDiceValue := 1,
    snakes := moderatePreset.snakes,
    ladders := moderatePreset.ladders }

/-- In the concrete session restingGame, a rolls 2 and resolves to square 7,
which differs from b's square 1, so no collision displacement fires and b's
position stays 1 untouched; yet the move broadcast lists b in
playersAffected, contradicting the claim that only players displaced by this
move are listed. -/
theorem affected_list_counterexample :
    playerPos restingGame "b" = 1 ∧
    resolveTarget { restingGame with lastDiceValue := 2 } "a" 2 = 7 ∧
    (1 : Int) ≠ 7 ∧
    playerPos (rollDice restingGame "a" 2).1 "b" = 1 ∧
    (rollDice restingGame "a" 2).2 = RollResponse.update false ["b"] := by
  refine ⟨by decide, by decide, by decide, by decide, by decide⟩

/-- C1 amended: in a two-player session, a nonzero resolved target equal to
the other player's square sends that player to exactly square 1; the
playersAffected list of the broadcast contains the other player exactly when
that player's post-move position is 1 (so every player displaced by this
move is listed, but an opponent already resting on square 1 is listed even
when this move displaced nobody), and never contains the acting player. -/
theorem collision_and_affected_list (g : Game) (a o : Player) (d : Int)
    (hps : g.players = [a, o] ∨ g.players = [o, a])
    (hne : o.id ≠ a.id)
    (hstatus : g.gameStatus = "playing")
    (hturn : g.currentPlayer = a.id) :
    ∃ e aff,
      (rollDice g a.id d).2 = RollResponse.update e aff ∧
      (o.position = resolveTarget g a.id d → resolveTarget g a.id d ≠ 0 →
        playerPos (rollDice g a.id d).1 o.id = 1) ∧
      (o.id ∈ aff ↔ playerPos (rollDice g a.id d).1 o.id = 1) ∧
      a.id ∉ aff := by
  have hnw : ¬ g.gameStatus = "won" := by
    rw [hstatus]
    decide
  have hnt : ¬ g.currentPlayer ≠ a.id := by
    rw [hturn]
    exact not_not_intro rfl
  have hroll : rollDice g a.id d =
      ((movePlayer { g with lastDiceValue := d } a.id d).game,
       RollResponse.update (movePlayer { g with lastDiceValue := d } a.id d).extraTurn
         (((movePlayer { g with lastDiceValue := d } a.id d).game.players.filter
           (fun p => p.position == 1 && p.id != a.id)).map (fun p => p.id))) := by
    simp only [rollDice]
    rw [if_neg hnw, if_neg hnt]
  have hG : (rollDice g a.id d).1 = (movePlayer { g with lastDiceValue := d } a.id d).game := by
    rw [hroll]
  have ht1 : resolveTarget { g with lastDiceValue := d } a.id d = resolveTarget g a.id d :=
    rfl
  cases hps with
  | inl hp =>
    have hp1 : ({ g with lastDiceValue := d } : Game).players = [a, o] := hp
    have hplayers := movePlayer_pair_fst { g with lastDiceValue := d } a o d hp1 hne
    rw [ht1] at hplayers
    by_cases hcol : o.position = resolveTarget g a.id d ∧ resolveTarget g a.id d ≠ 0
    · rw [if_pos hcol] at hplayers
      have hpp : playerPos (rollDice g a.id d).1 o.id = 1 := by
        have hb : (a.id == o.id) = false := by simp [Ne.symm hne]
        rw [hG]
        unfold playerPos
        rw [hplayers]
        simp [List.find?, hb]
      refine ⟨(movePlayer { g with lastDiceValue := d } a.id d).extraTurn, [o.id],
        ?_, fun _ _ => hpp, ?_, ?_⟩
      · rw [hroll]
        show RollResponse.update _ _ = _
        rw [hplayers]
        simp [List.filter_cons, hne]
      · simp [hpp]
      · simp [Ne.symm hne]
    · rw [if_neg hcol] at hplayers
      have hpp : playerPos (rollDice g a.id d).1 o.id = o.position := by
        have hb : (a.id == o.id) = false := by simp [Ne.symm hne]
        rw [hG]
        unfold playerPos
        rw [hplayers]
        simp [List.find?, hb]
      by_cases ho1 : o.position = 1
      · refine ⟨(movePlayer { g with lastDiceValue := d } a.id d).extraTurn, [o.id],
          ?_, fun h1 h2 => absurd ⟨h1, h2⟩ hcol, ?_, ?_⟩
        · rw [hroll]
          show RollResponse.update _ _ = _
          rw [hplayers]
          simp [List.filter_cons, hne, ho1]
        · simp [hpp, ho1]
        · simp [Ne.symm hne]
      · refine ⟨(movePlayer { g with lastDiceValue := d } a.id d).extraTurn, [],
          ?_, fun h1 h2 => absurd ⟨h1, h2⟩ hcol, ?_, ?_⟩
        · rw [hroll]
          show RollResponse.update _ _ = _
          rw [hplayers]
          simp [List.filter_cons, ho1]
        · simp [hpp, ho1]
        · simp
  | inr hp =>
    have hp1 : ({ g with lastDiceValue := d } : Game).players = [o, a] := hp
    have hplayers := movePlayer_pair_snd { g with lastDiceValue := d } o a d hp1 hne
    rw [ht1] at hplayers
    by_cases hcol : o.position = resolveTarget g a.id d ∧ resolveTarget g a.id d ≠ 0
    · rw [if_pos hcol] at hplayers
      have hpp : playerPos (rollDice g a.id d).1 o.id = 1 := by
        rw [hG]
        unfold playerPos
        rw [hplayers]
        simp [List.find?]
      refine ⟨(movePlayer { g with lastDiceValue := d } a.id d).extraTurn, [o.id],
        ?_, fun _ _ => hpp, ?_, ?_⟩
      · rw [hroll]
        show RollResponse.update _ _ = _
        rw [hplayers]
        simp [List.filter_cons, hne]
      · simp [hpp]
      · simp [Ne.symm hne]
    · rw [if_neg hcol] at hplayers
      have hpp : playerPos (rollDice g a.id d).1 o.id = o.position := by
        rw [hG]
        unfold playerPos
        rw [hplayers]
        simp [List.find?]
      by_cases ho1 : o.position = 1
      · refine ⟨(movePlayer { g with lastDiceValue := d } a.id d).extraTurn, [o.id],
          ?_, fun h1 h2 => absurd ⟨h1, h2⟩ hcol, ?_, ?_⟩
        · rw [hroll]
          show RollResponse.update _ _ = _
          rw [hplayers]
          simp [List.filter_cons, hne, ho1]
        · simp [hpp, ho1]
        · simp [Ne.symm hne]
      · refine ⟨(movePlayer { g with lastDiceValue := d } a.id d).extraTurn, [],
          ?_, fun h1 h2 => absurd ⟨h1, h2⟩ hcol, ?_, ?_⟩
        · rw [hroll]
          show RollResponse.update _ _ = _
          rw [hplayers]
          simp [List.filter_cons, hne, ho1]
        · simp [hpp, ho1]
        · simp

/-- A two-player session in which b sits exactly on the square a is about to
land on, so the move displaces b. -/
def dispGame : Game :=
  { players := [⟨"a", 5⟩, ⟨"b", 7⟩],
    currentPlayer := "a",
    gameStatus := "playing",
    winner := none,
    lastDiceValue := 1,
    snakes := moderatePreset.snakes,
    ladders := moderatePreset.ladders }

/-- The amended collision rule at a concrete displacement: a moves 5 → 7 onto
b, b is reset to exactly square 1, b is listed in the broadcast and a is not. -/
theorem collision_and_affected_list_witness :
    playerPos (rollDice dispGame "a" 2).1 "b" = 1 ∧
    (∃ e aff, (rollDice dispGame "a" 2).2 = RollResponse.update e aff ∧
      "b" ∈ aff ∧ "a" ∉ aff) := by
  obtain ⟨e, aff, h1, h2, h3, h4⟩ :=
    collision_and_affected_list dispGame ⟨"a", 5⟩ ⟨"b", 7⟩ 2
      (Or.inl rfl) (by decide) rfl rfl
  have hdisp := h2 (by decide) (by decide)
  exact ⟨hdisp, e, aff, h1, h3.mpr hdisp, h4⟩

/-- A nonzero board lookup result is the value of some stored entry. -/
lemma boardLookup_mem (m : List (Int × Int)) (k : Int) (h : boardLookup m k ≠ 0) :
    ∃ e ∈ m, e.2 = boardLookup m k := by
  unfold boardLookup at h ⊢
  cases hf : m.find? (fun e => e.1 == k) with
  | none =>
    rw [hf] at h
    exact absurd rfl h
  | some e => exact ⟨e, List.mem_of_find?_eq_some hf, rfl⟩

/-- With in-range positions and board values and a die in 1..6, the resolved
target stays in 0..100. -/
lemma resolveTarget_bounds (g : Game) (pid : String) (d : Int)
    (hpos : posInv g) (hb : boardValsInv g) (hd0 : 1 ≤ d) (hd1 : d ≤ 6) :
    0 ≤ resolveTarget g pid d ∧ resolveTarget g pid d ≤ 100 := by
  have hp : 0 ≤ playerPos g pid ∧ playerPos g pid ≤ 100 := by
    unfold playerPos
    cases hf : g.players.find? (fun p => p.id == pid) with
    | none => simp
    | some p => exact hpos p (List.mem_of_find?_eq_some hf)
  have hbt : 0 ≤ bounceTarget (playerPos g pid) d ∧
      bounceTarget (playerPos g pid) d ≤ 100 := by
    unfold bounceTarget
    split <;> omega
  simp only [resolveTarget]
  split
  · rename_i hs
    obtain ⟨e, he, hev⟩ := boardLookup_mem _ _ hs
    have := hb.1 e he
    omega
  · split
    · rename_i hl
      obtain ⟨e, he, hev⟩ := boardLookup_mem _ _ hl
      have := hb.2 e he
      omega
    · exact hbt

/-- Membership after the position update: either the updated position or an
original player's position. -/
lemma pos_of_mem_setPlayerPos (r : Player) (ps : List Player) (pid : String) (v : Int)
    (h : r ∈ setPlayerPos ps pid v) :
    r.position = v ∨ ∃ x ∈ ps, r.position = x.position := by
  unfold setPlayerPos at h
  obtain ⟨x, hx, hr⟩ := List.mem_map.1 h
  by_cases hid : (x.id == pid) = true
  · rw [if_pos hid] at hr
    left
    rw [← hr]
  · rw [if_neg hid] at hr
    right
    exact ⟨x, hx, by rw [← hr]⟩

/-- Membership after displacement: either square 1 or an original position. -/
lemma pos_of_mem_displaceOthers (r : Player) (ps : List Player) (pid : String) (t : Int)
    (h : r ∈ displaceOthers ps pid t) :
    r.position = 1 ∨ ∃ x ∈ ps, r.position = x.position := by
  unfold displaceOthers at h
  split at h
  · exact Or.inr ⟨r, h, rfl⟩
  · rename_i q hq
    split at h
    · obtain ⟨x, hx, hr⟩ := List.mem_map.1 h
      by_cases hid : (x.id == q.id) = true
      · rw [if_pos hid] at hr
        left
        rw [← hr]
      · rw [if_neg hid] at hr
        right
        exact ⟨x, hx, by rw [← hr]⟩
    · exact Or.inr ⟨r, h, rfl⟩

/-- movePlayer keeps every position inside 0..100. -/
lemma movePlayer_preserves_posInv (g : Game) (pid : String) (d : Int)
    (hpos : posInv g) (hb : boardValsInv g) (hd0 : 1 ≤ d) (hd1 : d ≤ 6) :
    posInv (movePlayer g pid d).game := by
  intro r hr
  rw [movePlayer_players] at hr
  have ht := resolveTarget_bounds g pid d hpos hb hd0 hd1
  rcases pos_of_mem_setPlayerPos r _ _ _ hr with h | ⟨x, hx, hxe⟩
  · rw [h]
    exact ht
  · rcases pos_of_mem_displaceOthers x _ _ _ hx with h1 | ⟨y, hy, hye⟩
    · rw [hxe, h1]
      omega
    · rw [hxe, hye]
      exact hpos y hy

/-- movePlayer never touches the stored board. -/
lemma movePlayer_board (g : Game) (pid : String) (d : Int) :
    (movePlayer g pid d).game.snakes = g.snakes ∧
    (movePlayer g pid d).game.ladders = g.ladders := by
  simp only [movePlayer]
  split
  · exact ⟨rfl, rfl⟩
  · split
    · exact ⟨rfl, rfl⟩
    · exact ⟨rfl, rfl⟩

/-- C8: player positions stay integers in 0..100 everywhere: at session
creation, across movePlayer (bounce, snake/ladder and collision
displacement included) together with board preservation, across the
roll-dice handler, and across reset. -/
theorem position_bounds_invariant :
    (∀ p1 p2 b, posInv (createGame p1 p2 b)) ∧
    (∀ g pid d, posInv g → boardValsInv g → 1 ≤ d → d ≤ 6 →
      posInv (movePlayer g pid d).game ∧ boardValsInv (movePlayer g pid d).game) ∧
    (∀ g sid d, posInv g → boardValsInv g → 1 ≤ d → d ≤ 6 →
      posInv (rollDice g sid d).1) ∧
    (∀ g, posInv (resetGame g)) := by
  refine ⟨?_, ?_, ?_, ?_⟩
  · intro p1 p2 b r hr
    unfold createGame at hr
    simp at hr
    rcases hr with rfl | rfl
    · exact ⟨le_refl 0, by norm_num⟩
    · exact ⟨le_refl 0, by norm_num⟩
  · intro g pid d h1 h2 h3 h4
    refine ⟨movePlayer_preserves_posInv g pid d h1 h2 h3 h4, ?_⟩
    have hbd := movePlayer_board g pid d
    unfold boardValsInv
    rw [hbd.1, hbd.2]
    exact h2
  · intro g sid d h1 h2 h3 h4
    simp only [rollDice]
    split
    · exact h1
    · split
      · exact h1
      · exact movePlayer_preserves_posInv { g with lastDiceValue := d } sid d h1 h2 h3 h4
  · intro g r hr
    obtain ⟨y, _, rfl⟩ := List.mem_map.1 hr
    exact ⟨le_refl 0, by norm_num⟩

/-- The bounds invariant at concrete states: a fresh session, a resolved
move, a handled roll and a reset all stay within 0..100. -/
theorem position_bounds_invariant_witness :
    posInv (createGame "a" "b" moderatePreset) ∧
    posInv (movePlayer playingGame "a" 3).game ∧
    posInv (rollDice playingGame "a" 3).1 ∧
    posInv (resetGame wonGame) := by
  have h := position_bounds_invariant
  exact ⟨h.1 "a" "b" moderatePreset,
         (h.2.1 playingGame "a" 3 (by decide) (by decide) (by decide) (by decide)).1,
         h.2.2.1 playingGame "a" 3 (by decide) (by decide) (by decide) (by decide),
         h.2.2.2 wonGame⟩

/-- Deleting a key removes it from lookup. -/
lemma lookup_delete (r : Registry) (gid : String) :
    lookupGame (deleteGame r gid) gid = none := by
  induction r with
  | nil => rfl
  | cons e rest ih =>
    by_cases he : e.1 = gid
    · have hb : (e.1 != gid) = false := by simp [he]
      unfold deleteGame lookupGame at ih ⊢
      simp only [List.filter_cons, hb, Bool.false_eq_true, if_false]
      exact ih
    · have hb : (e.1 != gid) = true := by simp [he]
      have hbe : (e.1 == gid) = false := by simp [he]
      unfold deleteGame lookupGame at ih ⊢
      simp only [List.filter_cons, hb, if_true, List.find?, hbe]
      exact ih

/-- C9 amended: an involuntary disconnect that leaves at most one player
never deletes the session synchronously — it schedules a 5000 ms deletion
timer, and no timer when two players remain; the scheduled deletion is
unconditional (it removes the session whatever the registry holds at expiry,
with no re-check of the player count); a voluntary leave never schedules a
timer (its result is a plain registry) and deletes synchronously exactly
when no players remain. -/
theorem disconnect_leave_lifecycle :
    (∀ gms gameId sid g, lookupGame gms gameId = some g →
      ((g.players.filter (fun p => p.id != sid)).length ≤ 1 →
        (disconnectHandler gms (some gameId) sid).2 = [⟨5000, gameId⟩] ∧
        lookupGame (disconnectHandler gms (some gameId) sid).1 gameId =
          some { g with players := g.players.filter (fun p => p.id != sid) }) ∧
      (¬ (g.players.filter (fun p => p.id != sid)).length ≤ 1 →
        (disconnectHandler gms (some gameId) sid).2 = [])) ∧
    (∀ gms t, lookupGame (fireTimer gms t) t.gameId = none) ∧
    (∀ gms gameId sid g, lookupGame gms gameId = some g →
      ((g.players.filter (fun p => p.id != sid)).length = 0 →
        lookupGame (leaveHandler gms (some gameId) sid) gameId = none) ∧
      ((g.players.filter (fun p => p.id != sid)).length ≠ 0 →
        lookupGame (leaveHandler gms (some gameId) sid) gameId =
          some { g with players := g.players.filter (fun p => p.id != sid) })) := by
  refine ⟨?_, ?_, ?_⟩
  · intro gms gameId sid g hg
    refine ⟨fun hle => ⟨?_, ?_⟩, fun hgt => ?_⟩
    · simp only [disconnectHandler, hg]
      rw [if_pos hle]
    · simp only [disconnectHandler, hg]
      rw [if_pos hle]
      exact lookup_update gms gameId g _ hg
    · simp only [disconnectHandler, hg]
      rw [if_neg hgt]
  · intro gms t
    unfold fireTimer
    exact lookup_delete gms t.gameId
  · intro gms gameId sid g hg
    refine ⟨fun h0 => ?_, fun hn0 => ?_⟩
    · simp only [leaveHandler, hg]
      rw [if_pos h0]
      exact lookup_delete gms gameId
    · simp only [leaveHandler, hg]
      rw [if_neg hn0]
      exact lookup_update gms gameId g _ hg

/-- At timer expiry the registry still holds the session with its two
players, yet firing the scheduled deletion removes it anyway: the grace-delay
deletion does not re-check the player count, contradicting the claim that a
session refilled to two players during the delay is not deleted. -/
theorem grace_delete_unconditional_counterexample :
    lookupGame [("g1", playingGame)] "g1" = some playingGame ∧
    playingGame.players.length = 2 ∧
    lookupGame (fireTimer [("g1", playingGame)] ⟨5000, "g1"⟩) "g1" = none := by
  refine ⟨by decide, by decide, by decide⟩

/-- The lifecycle at concrete inputs: a disconnect of b leaves one player and
schedules the 5000 ms deletion timer without deleting synchronously, and a
voluntary leave of b with a still present deletes nothing and rewrites the
stored session. -/
theorem disconnect_leave_lifecycle_witness :
    (disconnectHandler [("g1", playingGame)] (some "g1") "b").2 = [⟨5000, "g1"⟩] ∧
    lookupGame (disconnectHandler [("g1", playingGame)] (some "g1") "b").1 "g1" =
      some { playingGame with
        players := playingGame.players.filter (fun p => p.id != "b") } ∧
    lookupGame (leaveHandler [("g1", playingGame)] (some "g1") "b") "g1" =
      some { playingGame with
        players := playingGame.players.filter (fun p => p.id != "b") } := by
  have h := disconnect_leave_lifecycle
  have h1 := (h.1 [("g1", playingGame)] "g1" "b" playingGame (by decide)).1 (by decide)
  have h3 := (h.2.2 [("g1", playingGame)] "g1" "b" playingGame (by decide)).2 (by decide)
  exact ⟨h1.1, h1.2, h3⟩

end SnakeGame
